import Mathlib

/-
Verification development for the ai-coach voice interaction orchestrator.

The definitions below are a shallow embedding of the React Native
application component (App.tsx) and its VoiceButton speech-session
manager.  Strings are modelled by Lean strings, timers by explicit
option-valued pending-timer fields, timestamps by naturals
(milliseconds), and the single-threaded event loop by a step function
over an explicit state record.  Each handler is translated line by
line from the source.
-/

namespace AICoach

-- ── Data model ────────────────────────────────────────────────────────────────

/-- App mode: `type AppMode = 'sleeping' | 'active' | 'confirming'`. -/
inductive Mode where
  | sleeping
  | active
  | confirming
deriving DecidableEq, Repr

/-- Turn status: `type Status = 'idle' | 'thinking' | 'speaking' | 'error'`. -/
inductive Status where
  | idle
  | thinking
  | speaking
  | error
deriving DecidableEq, Repr

/-- `HistoryEntry.role : 'user' | 'assistant'`. -/
inductive Role where
  | user
  | assistant
deriving DecidableEq, Repr

/-- `HistoryEntry {role, content}` from api.ts. -/
structure HistoryEntry where
  role : Role
  content : String
deriving DecidableEq, Repr

-- ── JS string primitives ─────────────────────────────────────────────────────
-- The JS string methods the app uses (`toLowerCase`, `trim`, `startsWith`,
-- `includes`, `length`, `slice`, `replace(/\s+/g, ' ')`) are modelled by
-- structurally recursive functions over the character list of a Lean string,
-- so that every predicate is evaluable by the kernel.

/-- `pre` is a prefix of the first list (JS `startsWith` core). -/
def startsWithCL : List Char → List Char → Bool
  | _, [] => true
  | [], _ :: _ => false
  | c :: cs, p :: ps => (c == p) && startsWithCL cs ps

/-- `pat` occurs as a contiguous sublist (JS `includes` core). -/
def includesCL (pat : List Char) : List Char → Bool
  | [] => startsWithCL [] pat
  | c :: cs => startsWithCL (c :: cs) pat || includesCL pat cs

/-- Drop whitespace from both ends (JS `trim` core). -/
def trimCL (l : List Char) : List Char :=
  ((l.dropWhile Char.isWhitespace).reverse.dropWhile Char.isWhitespace).reverse

/-- JS `s.toLowerCase()`. -/
def jsLower (s : String) : String := ⟨s.data.map Char.toLower⟩

/-- JS `s.trim()`. -/
def jsTrim (s : String) : String := ⟨trimCL s.data⟩

/-- JS `s.startsWith(pre)`. -/
def jsStartsWith (s pre : String) : Bool := startsWithCL s.data pre.data

/-- JS `s.includes(pat)`. -/
def jsIncludes (s pat : String) : Bool := includesCL pat.data s.data

/-- JS `s.length` (the app's strings are plain ASCII, so UTF-16 units
coincide with characters). -/
def jsLen (s : String) : Nat := s.data.length

/-- JS `s.slice(0, n)`. -/
def jsTake (s : String) (n : Nat) : String := ⟨s.data.take n⟩

/-- Collapse every maximal whitespace run to a single space:
JS `s.replace(/\s+/g, ' ')` (map whitespace to a space, then squeeze
consecutive spaces). -/
def squeezeSpaces : List Char → List Char
  | [] => []
  | [c] => [c]
  | a :: b :: rest =>
    if a == ' ' && b == ' ' then squeezeSpaces (b :: rest)
    else a :: squeezeSpaces (b :: rest)

/-- JS `s.replace(/\s+/g, ' ')`. -/
def jsCollapseWs (s : String) : String :=
  ⟨squeezeSpaces (s.data.map (fun c => if c.isWhitespace then ' ' else c))⟩

-- ── Phrase helpers (App.tsx lines 28-56) ─────────────────────────────────────

/-- `LOCK_PHRASES` constant. -/
def LOCK_PHRASES : List String :=
  ["yes", "yeah", "yep", "yup", "correct", "confirm",
   "that\x27s it", "lock it", "lock", "right", "exactly", "that\x27s the one"]

/-- `isLockPhrase(text)`. -/
def isLockPhrase (text : String) : Bool :=
  let lower := jsTrim (jsLower text)
  jsLen lower < 30 &&
    LOCK_PHRASES.any (fun p => lower == p || jsStartsWith lower (p ++ " "))

/-- `isNoPhrase(text)`. -/
def isNoPhrase (text : String) : Bool :=
  let lower := jsTrim (jsLower text)
  lower == "no" || lower == "nope" || lower == "nah" || lower == "skip" ||
  lower == "not that" || lower == "something else" || lower == "next" ||
  jsStartsWith lower "no " || jsStartsWith lower "not that"

/-- `isWakeWord(text)`. -/
def isWakeWord (text : String) : Bool :=
  let lower := jsTrim (jsLower text)
  jsIncludes lower "jarvis" || jsIncludes lower "travis" ||
  lower == "hey" || lower == "activate" || lower == "wake up"

/-- `isWhatDoYouSee(text)` (note: lower-cased but not trimmed in the source). -/
def isWhatDoYouSee (text : String) : Bool :=
  let lower := jsLower text
  jsIncludes lower "what do you see" || jsIncludes lower "what can you see" ||
  jsIncludes lower "what\x27s on the screen" || jsIncludes lower "what is on screen" ||
  jsIncludes lower "describe the screen" || jsIncludes lower "what question" ||
  jsIncludes lower "look at the screen" || jsIncludes lower "check the screen"

-- ── History truncation (App.tsx lines 200-204 and 262-266) ───────────────────

/-- `setHistory(prev => [...prev, {user}, {assistant}].slice(-10))` in
`handleAskWithText`.  JS `slice(-10)` keeps the last ten elements. -/
def askHistoryUpdate (prev : List HistoryEntry) (question answerText : String) :
    List HistoryEntry :=
  let l := prev ++ [⟨Role.user, question⟩, ⟨Role.assistant, answerText⟩]
  l.drop (l.length - 10)

/-- The identical `setHistory` update in `handleCapture`. -/
def captureHistoryUpdate (prev : List HistoryEntry) (question answerText : String) :
    List HistoryEntry :=
  let l := prev ++ [⟨Role.user, question⟩, ⟨Role.assistant, answerText⟩]
  l.drop (l.length - 10)

-- ── Dispatcher state machine (App.tsx) ───────────────────────────────────────

/-- The mutable state of the App component that the dialogue dispatcher
reads and writes: mode (`modeRef`/`mode`), the one-shot wake guard
(`wakeWordFiredRef`), locked context (`lockedContextRef`/`lockedContext`),
pending confirmation text (`confirmingTextRef`), live OCR text
(`detectedTextRef`), conversation history, pending question and the
camera-capture trigger (`captureNow`). -/
structure AppState where
  mode : Mode
  fired : Bool
  locked : String
  pending : String
  detected : String
  history : List HistoryEntry
  pendingQuestion : String
  captureNow : Bool
deriving DecidableEq, Repr

/-- Externally observable action a handler performs. `wake` is the
sleeping-to-active transition (speaks the canned greeting and clears
history); `answer q ctx` is a `handleAskWithText(q, ctx)` inference
dispatch; `capture q` is the image fallback (`setCaptureNow(true)`). -/
inductive Action where
  | none
  | wake
  | speak (msg : String)
  | answer (question ctx : String)
  | capture (question : String)
deriving DecidableEq, Repr

/-- Initial component state (App.tsx lines 60-90). -/
def initState : AppState :=
  { mode := Mode.sleeping, fired := false, locked := "", pending := "",
    detected := "", history := [], pendingQuestion := "", captureNow := false }

/-- `describeAndConfirm` (App.tsx lines 284-300): if the live OCR text is
shorter than 15 characters, apologise; else snapshot it as the pending
confirmation and enter confirming mode. -/
def describeAndConfirm (s : AppState) : AppState × Action :=
  if jsLen s.detected < 15 then
    (s, Action.speak "I can\x27t see any text clearly. Point the camera at the screen and try again.")
  else
    ({s with pending := s.detected, mode := Mode.confirming},
     Action.speak ("I\x27m looking at the screen. I can see: \"" ++
       jsTake (jsTrim (jsCollapseWs s.detected)) 160 ++
       "\". Is that what you want me to focus on?"))

/-- `handlePartialResult` (App.tsx lines 304-315): wake-word detection on
partial transcripts, one-shot per utterance via `wakeWordFiredRef`. -/
def handlePartialResult (s : AppState) (text : String) : AppState × Action :=
  if s.mode ≠ Mode.sleeping then (s, Action.none)
  else if s.fired then (s, Action.none)
  else if isWakeWord text then
    ({s with fired := true, mode := Mode.active, history := []}, Action.wake)
  else (s, Action.none)

/-- `handleVoiceResult` (App.tsx lines 318-424): the dialogue dispatcher
over finalized transcripts. -/
def handleVoiceResult (s : AppState) (question : String) : AppState × Action :=
  let lower := jsTrim (jsLower question)
  -- `wakeWordFiredRef.current = false` — reset the partial-wake guard
  let s1 : AppState := {s with fired := false}
  if isWakeWord question then
    if s1.mode = Mode.sleeping then
      ({s1 with mode := Mode.active, history := []}, Action.wake)
    else (s1, Action.none)
  else if s1.mode = Mode.sleeping then (s1, Action.none)
  else if s1.mode = Mode.confirming then
    if isLockPhrase question then
      ({s1 with pending := "", mode := Mode.active, locked := s1.pending},
       Action.speak "Locked. Ask me anything about it.")
    else if isNoPhrase question then
      ({s1 with pending := "", mode := Mode.active},
       Action.speak "OK, navigate to the right screen and say \"what do you see\".")
    else
      -- question instead of yes/no: answer with pending context (or live OCR)
      let ctx := if s1.pending = "" then s1.detected else s1.pending
      let s2 : AppState :=
        {s1 with pending := "", mode := Mode.active, pendingQuestion := question}
      if jsLen ctx > 5 then (s2, Action.answer question ctx)
      else (s2, Action.none)
  else if isWhatDoYouSee question then
    describeAndConfirm s1
  else if lower = "unlock" ∨ lower = "next question" ∨ lower = "next" then
    ({s1 with locked := "", pending := "", mode := Mode.active},
     Action.speak "Unlocked. Say \"what do you see\" when you\x27re on the next question.")
  else if isLockPhrase question = true ∧ s1.locked = "" ∧ jsLen s1.detected > 10 then
    ({s1 with locked := s1.detected}, Action.speak "Got it, locked on the current screen.")
  else
    let context := if s1.locked = "" then s1.detected else s1.locked
    if jsLen context > 5 then
      ({s1 with pendingQuestion := question}, Action.answer question context)
    else
      ({s1 with pendingQuestion := question, captureNow := true}, Action.capture question)

/-- Events the dispatcher machine reacts to: a non-empty partial
transcript, a finalized transcript, an OCR update
(`detectedTextRef.current = text` in `handleTextDetected`), the on-screen
Unlock button (App.tsx lines 461-464), the tap-to-activate button
(`handleVoiceResult('hey jarvis')`, line 475), and completion of an
inference exchange (the `setHistory` append in `handleAskWithText`;
a failed exchange leaves history untouched). -/
inductive Ev where
  | evPartialTranscript (t : String)
  | evFinalTranscript (t : String)
  | evOcr (t : String)
  | evUiUnlock
  | evTapActivate
  | evAskDone (q a : String)
deriving DecidableEq, Repr

/-- One step of the dispatcher machine. -/
def stepApp (s : AppState) (e : Ev) : AppState × Action :=
  match e with
  | Ev.evPartialTranscript t => handlePartialResult s t
  | Ev.evFinalTranscript t => handleVoiceResult s t
  | Ev.evOcr t => ({s with detected := t}, Action.none)
  | Ev.evUiUnlock => ({s with locked := "", pending := ""}, Action.none)
  | Ev.evTapActivate => handleVoiceResult s "hey jarvis"
  | Ev.evAskDone q a =>
      ({s with history := askHistoryUpdate s.history q a, pendingQuestion := ""},
       Action.none)

/-- Reachable states of the dispatcher machine. -/
inductive Reach : AppState → Prop where
  | init : Reach initState
  | step : ∀ (s : AppState) (e : Ev), Reach s → Reach (stepApp s e).1

/-- Run a list of events, collecting the emitted actions. -/
def stepActions : AppState → List Ev → AppState × List Action
  | s, [] => (s, [])
  | s, e :: es =>
    let p := stepApp s e
    let q := stepActions p.1 es
    (q.1, p.2 :: q.2)

/-- Events of one utterance: its partial transcripts followed by the
finalized transcript. -/
def utteranceEvents (ps : List String) (f : String) : List Ev :=
  ps.map Ev.evPartialTranscript ++ [Ev.evFinalTranscript f]

-- ── Branch lemmas for the dispatcher ─────────────────────────────────────────

theorem hvr_wake_sleeping (s : AppState) (q : String)
    (hq : isWakeWord q = true) (hm : s.mode = Mode.sleeping) :
    handleVoiceResult s q =
      ({s with fired := false, mode := Mode.active, history := []}, Action.wake) := by
  simp [handleVoiceResult, hq, hm]

theorem hvr_nonwake_sleeping (s : AppState) (q : String)
    (hq : isWakeWord q = false) (hm : s.mode = Mode.sleeping) :
    handleVoiceResult s q = ({s with fired := false}, Action.none) := by
  simp [handleVoiceResult, hq, hm]

theorem hvr_mode_sleeping (s : AppState) (q : String)
    (h : (handleVoiceResult s q).1.mode = Mode.sleeping) : s.mode = Mode.sleeping := by
  revert h
  simp only [handleVoiceResult, describeAndConfirm]
  split_ifs <;> simp_all

theorem hvr_wake_action (s : AppState) (q : String)
    (h : (handleVoiceResult s q).2 = Action.wake) : s.mode = Mode.sleeping := by
  revert h
  simp only [handleVoiceResult, describeAndConfirm]
  split_ifs <;> simp_all

theorem hpr_mode_sleeping (s : AppState) (t : String)
    (h : (handlePartialResult s t).1.mode = Mode.sleeping) : s.mode = Mode.sleeping := by
  revert h
  simp only [handlePartialResult]
  split_ifs <;> simp_all

theorem hpr_wake_action (s : AppState) (t : String)
    (h : (handlePartialResult s t).2 = Action.wake) : s.mode = Mode.sleeping := by
  revert h
  simp only [handlePartialResult]
  split_ifs <;> simp_all

theorem stepApp_mode_sleeping (s : AppState) (e : Ev)
    (h : (stepApp s e).1.mode = Mode.sleeping) : s.mode = Mode.sleeping := by
  cases e with
  | evPartialTranscript t => exact hpr_mode_sleeping s t h
  | evFinalTranscript t => exact hvr_mode_sleeping s t h
  | evOcr t => simpa [stepApp] using h
  | evUiUnlock => simpa [stepApp] using h
  | evTapActivate => exact hvr_mode_sleeping s "hey jarvis" h
  | evAskDone q a => simpa [stepApp] using h

theorem stepApp_wake_action (s : AppState) (e : Ev)
    (h : (stepApp s e).2 = Action.wake) : s.mode = Mode.sleeping := by
  cases e with
  | evPartialTranscript t => exact hpr_wake_action s t h
  | evFinalTranscript t => exact hvr_wake_action s t h
  | evOcr t => simp [stepApp] at h
  | evUiUnlock => simp [stepApp] at h
  | evTapActivate => exact hvr_wake_action s "hey jarvis" h
  | evAskDone q a => simp [stepApp] at h

/-- Once awake, no run of events ever wakes again, and the mode stays
non-sleeping. -/
theorem run_no_wake_when_awake (evs : List Ev) :
    ∀ s : AppState, s.mode ≠ Mode.sleeping →
      (stepActions s evs).1.mode ≠ Mode.sleeping ∧
        (stepActions s evs).2.count Action.wake = 0 := by
  induction evs with
  | nil => intro s hs; simpa [stepActions] using hs
  | cons e es ih =>
    intro s hs
    have hmode : (stepApp s e).1.mode ≠ Mode.sleeping :=
      fun h => hs (stepApp_mode_sleeping s e h)
    have hact : (stepApp s e).2 ≠ Action.wake :=
      fun h => hs (stepApp_wake_action s e h)
    have := ih (stepApp s e).1 hmode
    simp only [stepActions]
    exact ⟨this.1, by simp [List.count_cons, this.2, hact]⟩

theorem hpr_fire (s : AppState) (t : String)
    (hm : s.mode = Mode.sleeping) (hf : s.fired = false) (hw : isWakeWord t = true) :
    handlePartialResult s t =
      ({s with fired := true, mode := Mode.active, history := []}, Action.wake) := by
  simp [handlePartialResult, hm, hf, hw]

theorem hpr_nofire (s : AppState) (t : String)
    (hm : s.mode = Mode.sleeping) (hw : isWakeWord t = false) :
    handlePartialResult s t = (s, Action.none) := by
  simp [handlePartialResult, hm, hw]

theorem hvr_wake_awake (s : AppState) (q : String)
    (hq : isWakeWord q = true) (hm : s.mode ≠ Mode.sleeping) :
    handleVoiceResult s q = ({s with fired := false}, Action.none) := by
  simp [handleVoiceResult, hq, hm]

theorem isWakeWord_heyjarvis : isWakeWord "hey jarvis" = true := by decide

theorem utteranceEvents_cons (p : String) (ps : List String) (f : String) :
    utteranceEvents (p :: ps) f = Ev.evPartialTranscript p :: utteranceEvents ps f := by
  simp [utteranceEvents]

-- ── History truncation lemmas ────────────────────────────────────────────────

theorem askHistoryUpdate_length_le (prev : List HistoryEntry) (q a : String) :
    (askHistoryUpdate prev q a).length ≤ 10 := by
  simp only [askHistoryUpdate, List.length_drop]
  omega

theorem askHistoryUpdate_ne_nil (prev : List HistoryEntry) (q a : String) :
    askHistoryUpdate prev q a ≠ [] := by
  intro h
  have := congrArg List.length h
  simp only [askHistoryUpdate, List.length_drop, List.length_append,
    List.length_cons, List.length_nil] at this
  omega

theorem askHistoryUpdate_suffix (prev : List HistoryEntry) (q a : String) :
    askHistoryUpdate prev q a <:+
      (prev ++ [⟨Role.user, q⟩, ⟨Role.assistant, a⟩]) := by
  simpa [askHistoryUpdate] using
    List.drop_suffix _ (prev ++ [(⟨Role.user, q⟩ : HistoryEntry), ⟨Role.assistant, a⟩])

-- ── Per-step history lemma ───────────────────────────────────────────────────

theorem stepApp_history_clear (s : AppState) (e : Ev)
    (hne : s.history ≠ []) (h : (stepApp s e).1.history = []) :
    (stepApp s e).2 = Action.wake ∧ s.mode = Mode.sleeping ∧
      (stepApp s e).1.mode = Mode.active := by
  cases e with
  | evPartialTranscript t =>
    revert h
    simp only [stepApp, handlePartialResult]
    split_ifs <;> simp_all
  | evFinalTranscript t =>
    revert h
    simp only [stepApp, handleVoiceResult, describeAndConfirm]
    split_ifs <;> simp_all
  | evOcr t => simp only [stepApp] at h; exact absurd h hne
  | evUiUnlock => simp only [stepApp] at h; exact absurd h hne
  | evTapActivate =>
    have hstep : stepApp s Ev.evTapActivate = handleVoiceResult s "hey jarvis" := rfl
    rw [hstep] at h ⊢
    by_cases hm : s.mode = Mode.sleeping
    · rw [hvr_wake_sleeping s "hey jarvis" isWakeWord_heyjarvis hm]
      exact ⟨rfl, hm, rfl⟩
    · rw [hvr_wake_awake s "hey jarvis" isWakeWord_heyjarvis hm] at h
      simp only at h
      exact absurd h hne
  | evAskDone q a =>
    simp only [stepApp] at h
    exact absurd h (askHistoryUpdate_ne_nil s.history q a)

-- ── State invariants of the dispatcher ───────────────────────────────────────

set_option maxHeartbeats 4000000 in
/-- A single finalized transcript preserves the structural state
invariants: the wake guard is reset, a non-empty pending confirmation
has length at least 15, a non-empty locked context has length above 10,
and the history is either untouched or cleared. -/
theorem hvr_state_inv (s : AppState) (q : String)
    (h2 : s.pending = "" ∨ 15 ≤ jsLen s.pending)
    (h3 : s.locked = "" ∨ 10 < jsLen s.locked) :
    (handleVoiceResult s q).1.fired = false ∧
    ((handleVoiceResult s q).1.pending = "" ∨ 15 ≤ jsLen (handleVoiceResult s q).1.pending) ∧
    ((handleVoiceResult s q).1.locked = "" ∨ 10 < jsLen (handleVoiceResult s q).1.locked) ∧
    ((handleVoiceResult s q).1.history = s.history ∨ (handleVoiceResult s q).1.history = []) := by
  rcases h2 with h2 | h2 <;> rcases h3 with h3 | h3 <;>
    (simp only [handleVoiceResult, describeAndConfirm]; split_ifs <;> simp_all <;> omega)

-- ── Reachability invariant ───────────────────────────────────────────────────

/-- Invariant of every reachable dispatcher state: the one-shot wake
guard is clear while sleeping; a non-empty pending confirmation was
snapshotted by `describeAndConfirm` from OCR text of length at least 15;
a non-empty locked context came either from such a snapshot or from the
spontaneous-lock branch (length above 10); history is capped at 10. -/
theorem reach_inv {s : AppState} (hs : Reach s) :
    (s.mode = Mode.sleeping → s.fired = false) ∧
    (s.pending = "" ∨ 15 ≤ jsLen s.pending) ∧
    (s.locked = "" ∨ 10 < jsLen s.locked) ∧
    s.history.length ≤ 10 := by
  induction hs with
  | init => refine ⟨fun _ => rfl, Or.inl rfl, Or.inl rfl, by simp [initState]⟩
  | step s e _ ih =>
    obtain ⟨ih1, ih2, ih3, ih4⟩ := ih
    cases e with
    | evOcr t => exact ⟨ih1, ih2, ih3, ih4⟩
    | evUiUnlock => exact ⟨ih1, Or.inl rfl, Or.inl rfl, ih4⟩
    | evAskDone q a =>
      exact ⟨ih1, ih2, ih3, askHistoryUpdate_length_le s.history q a⟩
    | evPartialTranscript t =>
      simp only [stepApp, handlePartialResult]
      split_ifs <;> simp_all
    | evFinalTranscript t =>
      have hinv := hvr_state_inv s t ih2 ih3
      refine ⟨fun _ => hinv.1, hinv.2.1, hinv.2.2.1, ?_⟩
      rcases hinv.2.2.2 with h | h
      · rw [show stepApp s (Ev.evFinalTranscript t) = handleVoiceResult s t from rfl, h]
        exact ih4
      · rw [show stepApp s (Ev.evFinalTranscript t) = handleVoiceResult s t from rfl, h]
        simp
    | evTapActivate =>
      have hinv := hvr_state_inv s "hey jarvis" ih2 ih3
      refine ⟨fun _ => hinv.1, hinv.2.1, hinv.2.2.1, ?_⟩
      rcases hinv.2.2.2 with h | h
      · rw [show stepApp s Ev.evTapActivate = handleVoiceResult s "hey jarvis" from rfl, h]
        exact ih4
      · rw [show stepApp s Ev.evTapActivate = handleVoiceResult s "hey jarvis" from rfl, h]
        simp

-- ── C1: wake fires exactly once per utterance ────────────────────────────────

/-- C1.  For every wake-phrase utterance heard while mode is sleeping
(some partial transcript or the final transcript matches the wake
vocabulary), processing the utterance (its partials in order, then its
final transcript) produces exactly one sleeping-to-active wake: a
matching partial fires at most once (the `wakeWordFiredRef` one-shot
guard plus the mode change), the final transcript of the same utterance
never fires a duplicate, and when no partial matched a matching final
transcript still wakes. -/
theorem wake_exactly_once_per_utterance (ps : List String) (s : AppState) (f : String)
    (hr : Reach s) (hmode : s.mode = Mode.sleeping)
    (hwake : (∃ p ∈ ps, isWakeWord p = true) ∨ isWakeWord f = true) :
    (stepActions s (utteranceEvents ps f)).2.count Action.wake = 1 ∧
      (stepActions s (utteranceEvents ps f)).1.mode ≠ Mode.sleeping := by
  have hfired : s.fired = false := (reach_inv hr).1 hmode
  clear hr
  induction ps generalizing s with
  | nil =>
    have hf : isWakeWord f = true := by
      rcases hwake with h | h
      · simp at h
      · exact h
    have hstep : stepApp s (Ev.evFinalTranscript f) =
        ({s with fired := false, mode := Mode.active, history := []}, Action.wake) :=
      hvr_wake_sleeping s f hf hmode
    simp [utteranceEvents, stepActions, hstep]
  | cons p ps ih =>
    rw [utteranceEvents_cons]
    by_cases hp : isWakeWord p = true
    · -- the partial fires the wake; nothing in the rest of the utterance fires again
      have hstep : stepApp s (Ev.evPartialTranscript p) =
          ({s with fired := true, mode := Mode.active, history := []}, Action.wake) :=
        hpr_fire s p hmode hfired hp
      have hrest := run_no_wake_when_awake (utteranceEvents ps f)
        {s with fired := true, mode := Mode.active, history := []} (by simp)
      simp only [stepActions, hstep]
      exact ⟨by simp [hrest.2], hrest.1⟩
    · -- non-matching partial: state unchanged, recurse
      have hp' : isWakeWord p = false := by simpa using hp
      have hstep : stepApp s (Ev.evPartialTranscript p) = (s, Action.none) :=
        hpr_nofire s p hmode hp'
      have hwake' : (∃ x ∈ ps, isWakeWord x = true) ∨ isWakeWord f = true := by
        rcases hwake with ⟨x, hx, hxw⟩ | h
        · rcases List.mem_cons.mp hx with rfl | hx'
          · exact absurd hxw (by simpa using hp)
          · exact Or.inl ⟨x, hx', hxw⟩
        · exact Or.inr h
      have := ih s hmode hwake' hfired
      simp only [stepActions, hstep]
      exact ⟨by simp [this.1], this.2⟩

/-- C1 witness: from the initial state, the utterance with partials
"hey jar", "hey jarvis" and final transcript "hey jarvis" wakes exactly
once (the second partial fires it; the final is suppressed). -/
theorem wake_exactly_once_per_utterance_witness :
    initState.mode = Mode.sleeping ∧
      (stepActions initState
        (utteranceEvents ["hey jar", "hey jarvis"] "hey jarvis")).2.count Action.wake = 1 :=
  ⟨rfl,
    (wake_exactly_once_per_utterance ["hey jar", "hey jarvis"] initState "hey jarvis"
      Reach.init rfl (Or.inl ⟨"hey jarvis", by decide, by decide⟩)).1⟩

-- ── C10: no return to sleeping; history cleared only by the wake ─────────────

/-- C10.  Once mode has left sleeping it never returns: every mode write
in `handlePartialResult`, `handleVoiceResult` and `describeAndConfirm`
stores only `active` or `confirming`, so a whole run of further events
keeps the mode non-sleeping; and any step that empties a non-empty
conversation history is the sleeping-to-active wake transition itself. -/
theorem mode_never_sleeps_again_and_history_only_cleared_by_wake
    (s : AppState) (evs : List Ev) (e : Ev) :
    (s.mode ≠ Mode.sleeping → (stepActions s evs).1.mode ≠ Mode.sleeping) ∧
    (s.history ≠ [] → (stepApp s e).1.history = [] →
      (stepApp s e).2 = Action.wake ∧ s.mode = Mode.sleeping ∧
        (stepApp s e).1.mode = Mode.active) :=
  ⟨fun h => (run_no_wake_when_awake evs s h).1,
   fun hne h => stepApp_history_clear s e hne h⟩

/-- C10 witness: after waking, a "what do you see" final transcript
leaves the mode non-sleeping; and a wake step that clears a one-entry
history is the sleeping-to-active transition. -/
theorem mode_never_sleeps_again_witness :
    ((stepApp initState (Ev.evFinalTranscript "hey jarvis")).1.mode ≠ Mode.sleeping →
      (stepActions (stepApp initState (Ev.evFinalTranscript "hey jarvis")).1
        [Ev.evFinalTranscript "what do you see"]).1.mode ≠ Mode.sleeping) ∧
    (({initState with history := [⟨Role.user, "q"⟩]} : AppState).history ≠ [] →
      (stepApp {initState with history := [⟨Role.user, "q"⟩]}
          (Ev.evFinalTranscript "hey jarvis")).1.history = [] →
      (stepApp {initState with history := [⟨Role.user, "q"⟩]}
          (Ev.evFinalTranscript "hey jarvis")).2 = Action.wake ∧
        ({initState with history := [⟨Role.user, "q"⟩]} : AppState).mode = Mode.sleeping ∧
        (stepApp {initState with history := [⟨Role.user, "q"⟩]}
          (Ev.evFinalTranscript "hey jarvis")).1.mode = Mode.active) :=
  ⟨(mode_never_sleeps_again_and_history_only_cleared_by_wake
      (stepApp initState (Ev.evFinalTranscript "hey jarvis")).1
      [Ev.evFinalTranscript "what do you see"] Ev.evUiUnlock).1,
   (mode_never_sleeps_again_and_history_only_cleared_by_wake
      {initState with history := [⟨Role.user, "q"⟩]} []
      (Ev.evFinalTranscript "hey jarvis")).2⟩

-- ── C5: the confirming branch ────────────────────────────────────────────────

/-- C5 as literally stated is false on two corners, both exercised here.
First, a transcript that is simultaneously a wake phrase and a lock
phrase ("yes jarvis") is consumed by the wake-word guard before the
confirming branch runs: nothing is locked and the pending confirmation
survives.  Second, when the pending confirmation is empty and the live
OCR text is at most 5 characters, the "anything else" arm dispatches no
answer at all. -/
theorem confirming_branch_counterexample :
    (isLockPhrase "yes jarvis" = true ∧ isWakeWord "yes jarvis" = true ∧
      (handleVoiceResult
        {initState with mode := Mode.confirming, pending := "function sum of a and b"}
        "yes jarvis").1.locked = "" ∧
      (handleVoiceResult
        {initState with mode := Mode.confirming, pending := "function sum of a and b"}
        "yes jarvis").1.pending = "function sum of a and b") ∧
    ((handleVoiceResult {initState with mode := Mode.confirming} "tell me more").2 =
        Action.none ∧
      (handleVoiceResult {initState with mode := Mode.confirming} "tell me more").1.mode =
        Mode.active) := by
  decide

/-- C5 amended.  In confirming mode, for every finalized transcript that
is not a wake phrase: a lock phrase locks the pending confirmation text,
clears it and activates; otherwise a negation phrase clears it and
activates without locking; anything else clears it, activates, records
the pending question, and dispatches an answer against the pending text
(or the live OCR text if the pending text is empty) exactly when that
context is longer than 5 characters — otherwise no answer is dispatched. -/
theorem confirming_branch (s : AppState) (q : String)
    (hmode : s.mode = Mode.confirming) (hw : isWakeWord q = false) :
    (isLockPhrase q = true →
      handleVoiceResult s q =
        ({s with fired := false, pending := "", mode := Mode.active, locked := s.pending},
         Action.speak "Locked. Ask me anything about it.")) ∧
    (isLockPhrase q = false → isNoPhrase q = true →
      handleVoiceResult s q =
        ({s with fired := false, pending := "", mode := Mode.active},
         Action.speak "OK, navigate to the right screen and say \"what do you see\".")) ∧
    (isLockPhrase q = false → isNoPhrase q = false →
      (handleVoiceResult s q).1.pending = "" ∧
      (handleVoiceResult s q).1.mode = Mode.active ∧
      (handleVoiceResult s q).1.pendingQuestion = q ∧
      (5 < jsLen (if s.pending = "" then s.detected else s.pending) →
        (handleVoiceResult s q).2 =
          Action.answer q (if s.pending = "" then s.detected else s.pending)) ∧
      (jsLen (if s.pending = "" then s.detected else s.pending) ≤ 5 →
        (handleVoiceResult s q).2 = Action.none)) := by
  refine ⟨fun hl => ?_, fun hl hn => ?_, fun hl hn => ?_⟩
  · simp [handleVoiceResult, hw, hmode, hl]
  · simp [handleVoiceResult, hw, hmode, hl, hn]
  · simp only [handleVoiceResult, hw, hmode]
    split_ifs <;> simp_all

/-- C5 witness: in confirming mode with a pending snapshot, "yes" locks
that snapshot, clears the pending confirmation and activates. -/
theorem confirming_branch_witness :
    isLockPhrase "yes" = true ∧
    handleVoiceResult
        {initState with mode := Mode.confirming, pending := "function sum of a and b"}
        "yes" =
      ({initState with
          mode := Mode.active
          fired := false
          pending := ""
          locked := "function sum of a and b"},
       Action.speak "Locked. Ask me anything about it.") :=
  ⟨by decide,
    (confirming_branch
      {initState with mode := Mode.confirming, pending := "function sum of a and b"}
      "yes" rfl (by decide)).1 (by decide)⟩

-- ── C6: locked context takes priority for regular questions ──────────────────

theorem hvr_regular (s : AppState) (q : String)
    (hw : isWakeWord q = false) (hmode : s.mode = Mode.active)
    (hsee : isWhatDoYouSee q = false)
    (hu1 : jsTrim (jsLower q) ≠ "unlock") (hu2 : jsTrim (jsLower q) ≠ "next question")
    (hu3 : jsTrim (jsLower q) ≠ "next") (hlock : isLockPhrase q = false) :
    handleVoiceResult s q =
      (if 5 < jsLen (if s.locked = "" then s.detected else s.locked) then
        ({s with fired := false, pendingQuestion := q},
         Action.answer q (if s.locked = "" then s.detected else s.locked))
      else
        ({s with fired := false, pendingQuestion := q, captureNow := true},
         Action.capture q)) := by
  simp [handleVoiceResult, hw, hmode, hsee, hu1, hu2, hu3, hlock]

/-- C6.  In active mode, a regular question (not a wake, describe,
unlock or lock phrase) is answered against the locked context whenever
one is set — it takes priority over the live OCR text even when they
differ (every reachable non-empty locked context exceeds the
5-character dispatch threshold); with no locked context the live OCR
text is used when longer than 5 characters, and otherwise the
`captureAndAnswer` image fallback fires. -/
theorem locked_context_priority (s : AppState) (q : String) (hr : Reach s)
    (hmode : s.mode = Mode.active) (hw : isWakeWord q = false)
    (hsee : isWhatDoYouSee q = false)
    (hunlock : jsTrim (jsLower q) ∉ (["unlock", "next question", "next"] : List String))
    (hlock : isLockPhrase q = false) :
    (s.locked ≠ "" → (handleVoiceResult s q).2 = Action.answer q s.locked) ∧
    (s.locked = "" → 5 < jsLen s.detected →
      (handleVoiceResult s q).2 = Action.answer q s.detected) ∧
    (s.locked = "" → jsLen s.detected ≤ 5 →
      (handleVoiceResult s q).2 = Action.capture q) := by
  simp only [List.mem_cons, List.mem_singleton, not_or] at hunlock
  obtain ⟨hu1, hu2, hu3⟩ := hunlock
  have hreg := hvr_regular s q hw hmode hsee hu1 hu2 (by simpa using hu3) hlock
  have hlen := (reach_inv hr).2.2.1
  refine ⟨fun hne => ?_, fun he hd => ?_, fun he hd => ?_⟩
  · rcases hlen with hl | hl
    · exact absurd hl hne
    · rw [hreg, if_neg (fun h => hne h), if_pos (show 5 < jsLen s.locked by omega)]
  · rw [hreg, if_pos (by rw [if_pos he]; exact hd)]
    rw [if_pos he]
  · rw [hreg, if_neg (by rw [if_pos he]; omega)]

/-- C6 witness: after waking, locking the OCR text
"function sum of a and b here" and then seeing different live OCR text,
"explain this" is answered against the locked context. -/
theorem locked_context_priority_witness :
    (stepActions initState
      [Ev.evFinalTranscript "hey jarvis",
       Ev.evOcr "function sum of a and b here",
       Ev.evFinalTranscript "yes",
       Ev.evOcr "now something else entirely"]).1.locked = "function sum of a and b here" ∧
    (stepActions initState
      [Ev.evFinalTranscript "hey jarvis",
       Ev.evOcr "function sum of a and b here",
       Ev.evFinalTranscript "yes",
       Ev.evOcr "now something else entirely"]).1.detected ≠ "function sum of a and b here" ∧
    (handleVoiceResult
      (stepActions initState
        [Ev.evFinalTranscript "hey jarvis",
         Ev.evOcr "function sum of a and b here",
         Ev.evFinalTranscript "yes",
         Ev.evOcr "now something else entirely"]).1 "explain this").2 =
      Action.answer "explain this"
        (stepActions initState
          [Ev.evFinalTranscript "hey jarvis",
           Ev.evOcr "function sum of a and b here",
           Ev.evFinalTranscript "yes",
           Ev.evOcr "now something else entirely"]).1.locked :=
  ⟨by decide, by decide,
    (locked_context_priority
      (stepActions initState
        [Ev.evFinalTranscript "hey jarvis",
         Ev.evOcr "function sum of a and b here",
         Ev.evFinalTranscript "yes",
         Ev.evOcr "now something else entirely"]).1 "explain this"
      (Reach.step _ (Ev.evOcr "now something else entirely")
        (Reach.step _ (Ev.evFinalTranscript "yes")
          (Reach.step _ (Ev.evOcr "function sum of a and b here")
            (Reach.step _ (Ev.evFinalTranscript "hey jarvis") Reach.init))))
      (by decide) (by decide) (by decide) (by decide) (by decide)).1 (by decide)⟩

-- ── Audio feedback guard / speech session manager (VoiceButton.tsx, App.tsx) ─

/-- Audio-arbitration state: `ttsPlaying` (App), `pendingSpeakRef` (App),
`pausedRef` and `activeRef` (VoiceButton), whether a speech-recognition
session is currently active (`Voice.start`ed and not destroyed), and
whether a restart timer is pending (`restartTimerRef`). -/
structure AudioState where
  ttsPlaying : Bool
  pendingSpeak : Bool
  paused : Bool
  micActive : Bool
  session : Bool
  restartTimer : Bool
deriving DecidableEq, Repr

/-- `startVoice` (VoiceButton.tsx lines 73-81): a no-op unless the mic
toggle is on and the guard is not paused; otherwise destroys any prior
session and starts a new one. -/
def startVoice (s : AudioState) : AudioState :=
  if !s.micActive || s.paused then s else {s with session := true}

/-- `pauseForTts` (VoiceButton.tsx lines 92-98): marks paused, cancels
any pending restart timer, and destroys the active session. -/
def pauseForTts (s : AudioState) : AudioState :=
  {s with paused := true, restartTimer := false, session := false}

/-- `resumeAfterTts` (VoiceButton.tsx lines 99-102): clears paused and,
if the mic toggle is on, schedules a restart (replacing any pending
timer). -/
def resumeAfterTts (s : AudioState) : AudioState :=
  if s.micActive then {s with paused := false, restartTimer := true}
  else {s with paused := false}

/-- `speakText` (App.tsx lines 142-152): sets `ttsPlaying`, calls
`pauseForTts` before any playback, raises the spurious-cancel
suppression flag and issues `Tts.stop()`; `Tts.speak` itself is issued
by the 100 ms timeout (`speakIssued` event). -/
def speakText (s : AudioState) : AudioState :=
  {pauseForTts {s with ttsPlaying := true} with pendingSpeak := true}

/-- `handleTtsEnd` (App.tsx lines 119-123): playback finished — clear
`ttsPlaying` and resume the mic. -/
def handleTtsEnd (s : AudioState) : AudioState :=
  resumeAfterTts {s with ttsPlaying := false}

/-- `handleTtsCancel` (App.tsx lines 125-130): a cancel observed while
`pendingSpeakRef` is set is our own `Tts.stop()` — ignored; otherwise
treated like the end of playback. -/
def handleTtsCancel (s : AudioState) : AudioState :=
  if s.pendingSpeak then s else handleTtsEnd s

/-- The body of the 100 ms `setTimeout` in `speakText`: clear the
suppression flag and issue `Tts.speak`. -/
def speakIssued (s : AudioState) : AudioState :=
  {s with pendingSpeak := false}

/-- The restart timer fires (VoiceButton.tsx lines 83-88): the timer is
consumed; `startVoice` runs only if the mic toggle is on and the guard
is not paused. -/
def restartTimerFire (s : AudioState) : AudioState :=
  if s.restartTimer then
    if s.micActive && !s.paused then startVoice {s with restartTimer := false}
    else {s with restartTimer := false}
  else s

/-- `Voice.onSpeechEnd` (VoiceButton.tsx lines 126-135): ignored while
paused; otherwise the utterance's session ends and a restart is
scheduled. -/
def onSpeechEnd (s : AudioState) : AudioState :=
  if s.paused then s else {s with session := false, restartTimer := true}

/-- `Voice.onSpeechError` (VoiceButton.tsx lines 137-144): ignored while
paused; otherwise the session ends and a restart is scheduled (the
backoff tier does not affect which state is reached). -/
def onSpeechError (s : AudioState) : AudioState :=
  if s.paused then s else {s with session := false, restartTimer := true}

/-- `handlePress` (VoiceButton.tsx lines 173-189): no-op while TTS is
playing; toggles the mic off (cancelling timer and destroying the
session) or on (then `startVoice`). -/
def handlePress (s : AudioState) : AudioState :=
  if s.ttsPlaying then s
  else if s.micActive then
    {s with micActive := false, restartTimer := false, session := false}
  else startVoice {s with micActive := true}

/-- The auto-start effect on mount (VoiceButton.tsx lines 161-171). -/
def mountStart (s : AudioState) : AudioState :=
  startVoice {s with micActive := true}

/-- Events of the audio-arbitration machine. -/
inductive AEv where
  | evSpeak
  | evSpeakIssued
  | evTtsFinish
  | evTtsCancel
  | evTtsError
  | evTimerFire
  | evSpeechEnd
  | evSpeechError
  | evPress
  | evMount
deriving DecidableEq, Repr

/-- One step of the audio-arbitration machine. -/
def stepAudio (s : AudioState) (e : AEv) : AudioState :=
  match e with
  | AEv.evSpeak => speakText s
  | AEv.evSpeakIssued => speakIssued s
  | AEv.evTtsFinish => handleTtsEnd s
  | AEv.evTtsCancel => handleTtsCancel s
  | AEv.evTtsError => handleTtsEnd s
  | AEv.evTimerFire => restartTimerFire s
  | AEv.evSpeechEnd => onSpeechEnd s
  | AEv.evSpeechError => onSpeechError s
  | AEv.evPress => handlePress s
  | AEv.evMount => mountStart s

/-- Initial audio state: nothing playing, not paused, mic off, no
session, no timer. -/
def audioInit : AudioState :=
  { ttsPlaying := false, pendingSpeak := false, paused := false,
    micActive := false, session := false, restartTimer := false }

/-- Reachable audio-arbitration states. -/
inductive AReach : AudioState → Prop where
  | init : AReach audioInit
  | step : ∀ (s : AudioState) (e : AEv), AReach s → AReach (stepAudio s e)

/-- The inductive invariant: the guard's paused flag tracks `ttsPlaying`
exactly, and while TTS plays there is neither an active session nor a
pending restart timer. -/
theorem audio_inv {s : AudioState} (h : AReach s) :
    s.paused = s.ttsPlaying ∧
      (s.ttsPlaying = true → s.session = false ∧ s.restartTimer = false) := by
  induction h with
  | init => exact ⟨rfl, by simp [audioInit]⟩
  | step s e _ ih =>
    cases e <;>
      simp only [stepAudio, speakText, speakIssued, pauseForTts, resumeAfterTts,
        handleTtsEnd, handleTtsCancel, restartTimerFire, onSpeechEnd, onSpeechError,
        handlePress, mountStart, startVoice] <;>
      first
        | (split_ifs <;> simp_all)
        | simp_all

/-- C2.  At every observed instant at which `ttsPlaying` is true, no
speech-recognition session is active: `speakText` raises `ttsPlaying`
and runs `pauseForTts` (pausing, cancelling the restart timer and
destroying the session) before playback is issued, and while paused
neither `startVoice` nor a fired restart timer starts a session. -/
theorem tts_excludes_listening (s t : AudioState) (hr : AReach s) :
    (s.ttsPlaying = true → s.session = false) ∧
    ((speakText t).ttsPlaying = true ∧ (speakText t).paused = true ∧
      (speakText t).session = false ∧ (speakText t).restartTimer = false) ∧
    (t.paused = true → startVoice t = t) ∧
    (t.paused = true → (restartTimerFire t).session = t.session) := by
  refine ⟨fun h => ((audio_inv hr).2 h).1, ⟨rfl, rfl, rfl, rfl⟩, fun hp => ?_, fun hp => ?_⟩
  · simp [startVoice, hp]
  · simp only [restartTimerFire, startVoice, hp]
    split_ifs <;> simp_all

/-- C2 witness: mount the mic (session becomes active), then speak —
in the reached state `ttsPlaying` is true and the session is destroyed;
the remaining conjuncts are checked at a concrete paused state. -/
theorem tts_excludes_listening_witness :
    (stepAudio (stepAudio audioInit AEv.evMount) AEv.evSpeak).ttsPlaying = true ∧
    (stepAudio (stepAudio audioInit AEv.evMount) AEv.evSpeak).session = false ∧
    startVoice {audioInit with paused := true} = {audioInit with paused := true} :=
  ⟨by decide,
    (tts_excludes_listening (stepAudio (stepAudio audioInit AEv.evMount) AEv.evSpeak)
      audioInit
      (AReach.step _ AEv.evSpeak (AReach.step _ AEv.evMount AReach.init))).1 (by decide),
    (tts_excludes_listening audioInit {audioInit with paused := true}
      AReach.init).2.2.1 (by decide)⟩

-- ── Text stabilizer (App.tsx lines 155-160) ──────────────────────────────────

/-- Stabilizer state: the raw OCR value (`detectedTextRef`), the pending
publish timer (`stableTimerRef`, carrying its due time and the value it
will publish), the published `stableText`, and ghost fields recording
the time and value of the most recent raw update. -/
structure StabState where
  detected : String
  stableTimer : Option (Nat × String)
  stableText : String
  lastRawTime : Nat
  lastRawVal : String
deriving DecidableEq, Repr

/-- `handleTextDetected` (App.tsx lines 155-160): record the raw text,
cancel any pending publish timer; an empty update clears `stableText`
synchronously, a non-empty one schedules a publish 1500 ms later
(`STABLE_DELAY_MS`). -/
def handleTextDetected (st : StabState) (now : Nat) (text : String) : StabState :=
  if text = "" then
    { detected := text, stableTimer := Option.none, stableText := "",
      lastRawTime := now, lastRawVal := text }
  else
    { detected := text, stableTimer := some (now + 1500, text),
      stableText := st.stableText, lastRawTime := now, lastRawVal := text }

/-- The publish timer fires at its due time: `setStableText(text)`. -/
def stableTimerFire (st : StabState) (now : Nat) : StabState :=
  match st.stableTimer with
  | some (due, v) =>
      if due = now then {st with stableText := v, stableTimer := Option.none} else st
  | Option.none => st

/-- Stabilizer events: a raw OCR update, or the pending timer firing. -/
inductive StabEv where
  | evRaw (now : Nat) (text : String)
  | evFire (now : Nat)
deriving DecidableEq, Repr

/-- One step of the stabilizer. -/
def stepStab (st : StabState) (e : StabEv) : StabState :=
  match e with
  | StabEv.evRaw now text => handleTextDetected st now text
  | StabEv.evFire now => stableTimerFire st now

/-- Initial stabilizer state. -/
def stabInit : StabState :=
  { detected := "", stableTimer := Option.none, stableText := "",
    lastRawTime := 0, lastRawVal := "" }

/-- Reachable stabilizer states. -/
inductive SReach : StabState → Prop where
  | init : SReach stabInit
  | step : ∀ (st : StabState) (e : StabEv), SReach st → SReach (stepStab st e)

/-- Pending-timer invariant: a scheduled publish always carries the
value of the most recent raw update, is non-empty, and is due exactly
1500 ms after that update arrived. -/
theorem stab_inv {st : StabState} (h : SReach st) :
    ∀ due v, st.stableTimer = some (due, v) →
      v ≠ "" ∧ st.lastRawVal = v ∧ st.lastRawTime + 1500 = due := by
  induction h with
  | init => intro due v h; simp [stabInit] at h
  | step st e _ ih =>
    intro due v h
    cases e with
    | evRaw now text =>
      by_cases ht : text = "" <;>
        simp_all [stepStab, handleTextDetected]
    | evFire now =>
      rcases htm : st.stableTimer with _ | ⟨d, w⟩
      · have heq : stepStab st (StabEv.evFire now) = st := by
          simp [stepStab, stableTimerFire, htm]
        rw [heq] at h ⊢
        exact ih due v h
      · by_cases hd : d = now
        · have heq : stepStab st (StabEv.evFire now) =
              {st with stableText := w, stableTimer := Option.none} := by
            simp [stepStab, stableTimerFire, htm, hd]
          rw [heq] at h
          simp at h
        · have heq : stepStab st (StabEv.evFire now) = st := by
            simp [stepStab, stableTimerFire, htm, hd]
          rw [heq] at h ⊢
          exact ih due v h

/-- C3.  A timer fire that changes `stableText` publishes a non-empty
value that the raw signal has held for the whole 1500 ms debounce
window (the most recent raw update delivered exactly that value exactly
1500 ms earlier); an empty raw update clears `stableText` synchronously
and cancels the pending timer; a non-empty raw update replaces the
pending timer with a fresh 1500 ms one and leaves `stableText`
untouched. -/
theorem stable_text_debounce (st : StabState) (hr : SReach st) (now : Nat)
    (t V : String) :
    ((stableTimerFire st now).stableText = V →
      (stableTimerFire st now).stableText ≠ st.stableText →
      V ≠ "" ∧ st.lastRawVal = V ∧ st.lastRawTime + 1500 = now) ∧
    ((handleTextDetected st now "").stableText = "" ∧
      (handleTextDetected st now "").stableTimer = Option.none) ∧
    (t ≠ "" →
      (handleTextDetected st now t).stableTimer = some (now + 1500, t) ∧
      (handleTextDetected st now t).stableText = st.stableText) := by
  refine ⟨fun hV hchange => ?_, ⟨rfl, rfl⟩, fun ht => ?_⟩
  · rcases htm : st.stableTimer with _ | ⟨d, w⟩
    · have heq : stableTimerFire st now = st := by simp [stableTimerFire, htm]
      rw [heq] at hchange
      exact absurd rfl hchange
    · by_cases hd : d = now
      · have heq : stableTimerFire st now =
            {st with stableText := w, stableTimer := Option.none} := by
          simp [stableTimerFire, htm, hd]
        rw [heq] at hV
        have hV' : w = V := hV
        obtain ⟨h1, h2, h3⟩ := stab_inv hr d w htm
        exact ⟨hV' ▸ h1, hV' ▸ h2, hd ▸ h3⟩
      · have heq : stableTimerFire st now = st := by simp [stableTimerFire, htm, hd]
        rw [heq] at hchange
        exact absurd rfl hchange
  · simp [handleTextDetected, ht]

/-- C3 witness: after a raw update "hello world text" at t = 100, the
timer firing at t = 1600 publishes it, and the invariant facts hold. -/
theorem stable_text_debounce_witness :
    (stableTimerFire (stepStab stabInit (StabEv.evRaw 100 "hello world text")) 1600).stableText
        = "hello world text" ∧
    "hello world text" ≠ "" ∧
    (stepStab stabInit (StabEv.evRaw 100 "hello world text")).lastRawVal = "hello world text" ∧
    (stepStab stabInit (StabEv.evRaw 100 "hello world text")).lastRawTime + 1500 = 1600 :=
  ⟨by decide,
    ((stable_text_debounce (stepStab stabInit (StabEv.evRaw 100 "hello world text"))
        (SReach.step _ (StabEv.evRaw 100 "hello world text") SReach.init) 1600
        "x" "hello world text").1 (by decide) (by decide)).1,
    ((stable_text_debounce (stepStab stabInit (StabEv.evRaw 100 "hello world text"))
        (SReach.step _ (StabEv.evRaw 100 "hello world text") SReach.init) 1600
        "x" "hello world text").1 (by decide) (by decide)).2.1,
    ((stable_text_debounce (stepStab stabInit (StabEv.evRaw 100 "hello world text"))
        (SReach.step _ (StabEv.evRaw 100 "hello world text") SReach.init) 1600
        "x" "hello world text").1 (by decide) (by decide)).2.2⟩

-- ── C4: speech start during TTS playback ─────────────────────────────────────

/-- State read and written by the speech-start path: the App's
`ttsPlayingRef`, the VoiceButton's `pausedRef`, the `stopAudio` flag and
whether a `Tts.stop()` call has been issued by this handler. -/
structure BargeState where
  ttsPlaying : Bool
  vbPaused : Bool
  stopAudio : Bool
  ttsStopIssued : Bool
deriving DecidableEq, Repr

/-- `handleSpeechStart` (App.tsx lines 163-167): if `ttsPlayingRef` is
set the event is treated as echo from TTS and ignored; otherwise stop
playback. -/
def handleSpeechStart (b : BargeState) : BargeState :=
  if b.ttsPlaying then b
  else {b with ttsStopIssued := true, stopAudio := true}

/-- `Voice.onSpeechStart` (VoiceButton.tsx lines 107-112): if
`pausedRef` is set the event is ignored entirely (the App callback is
never invoked); otherwise the App callback runs (the listening
bookkeeping is not modelled). -/
def vbOnSpeechStart (b : BargeState) : BargeState :=
  if b.vbPaused then b else handleSpeechStart b

/-- C4 as stated is false: a speech-start event observed while
`ttsPlaying` is true is ignored by `handleSpeechStart` (and already
swallowed by the recognizer layer when `pausedRef` is set) — no
`Tts.stop()` is issued and nothing switches to listening. -/
theorem bargein_counterexample :
    handleSpeechStart ⟨true, true, false, false⟩ = ⟨true, true, false, false⟩ ∧
    (handleSpeechStart ⟨true, true, false, false⟩).ttsStopIssued = false ∧
    vbOnSpeechStart ⟨true, true, false, false⟩ = ⟨true, true, false, false⟩ := by
  decide

/-- C4 amended.  A speech-start event observed while `ttsPlaying` is
true is absorbed as TTS echo — both the recognizer layer (`pausedRef`
guard) and the App layer (`ttsPlayingRef` guard) ignore it; playback is
stopped (`Tts.stop()` and `setStopAudio(true)`) only when speech starts
while no reply is playing. -/
theorem speech_start_echo_filter (b : BargeState) :
    (b.ttsPlaying = true → handleSpeechStart b = b) ∧
    (b.vbPaused = true → vbOnSpeechStart b = b) ∧
    (b.ttsPlaying = false →
      (handleSpeechStart b).ttsStopIssued = true ∧ (handleSpeechStart b).stopAudio = true) := by
  refine ⟨fun h => ?_, fun h => ?_, fun h => ?_⟩
  · simp [handleSpeechStart, h]
  · simp [vbOnSpeechStart, h]
  · simp [handleSpeechStart, h]

/-- C4 amended witness: concrete checks on both sides of the guard. -/
theorem speech_start_echo_filter_witness :
    handleSpeechStart ⟨true, true, false, false⟩ = ⟨true, true, false, false⟩ ∧
    (handleSpeechStart ⟨false, false, false, false⟩).ttsStopIssued = true :=
  ⟨(speech_start_echo_filter ⟨true, true, false, false⟩).1 (by decide),
   ((speech_start_echo_filter ⟨false, false, false, false⟩).2.2 (by decide)).1⟩

-- ── C7: proactive hint watcher (App.tsx lines 228-248) ───────────────────────

/-- `CooldownState`: `lastAnalyzedKeyRef` and `lastAnalyzedTimeRef`. -/
structure HintState where
  lastKey : String
  lastTime : Nat
deriving DecidableEq, Repr

/-- Everything the proactive-hint effect reads: the stabilized text, the
locked context, the mode, whether the user is speaking, whether a turn
is in flight, and the current time (`Date.now()`). -/
structure HintInput where
  stableText : String
  locked : String
  mode : Mode
  listening : Bool
  thinking : Bool
  now : Nat
deriving DecidableEq, Repr

/-- `stableText.trim().slice(0, 50)` — the content signature. -/
def textKey (s : String) : String := jsTake (jsTrim s) 50

/-- One run of the proactive-hint effect: returns the updated cooldown
state and whether a hint fired. -/
def hintStep (st : HintState) (inp : HintInput) : HintState × Bool :=
  if inp.stableText = "" ∨ jsLen inp.stableText < 20 then (st, false)
  else if inp.locked = "" then (st, false)
  else if inp.mode ≠ Mode.active then (st, false)
  else if inp.listening then (st, false)
  else if inp.thinking then (st, false)
  else if textKey inp.stableText = st.lastKey then (st, false)
  else if inp.now - st.lastTime < 10000 then (st, false)
  else ({lastKey := textKey inp.stableText, lastTime := inp.now}, true)

/-- A convenient hint-watcher input with all gating conditions open. -/
def hintInp (t : String) (n : Nat) : HintInput :=
  { stableText := t, locked := "interview question", mode := Mode.active,
    listening := false, thinking := false, now := n }

/-- C7 as stated is false: the watcher only remembers the *last* fired
signature, so the same content key can fire twice when a different key
fires in between — run A (t=10000), B (t=20000), A (t=30000) fires
three hints, the first and third with the same key. -/
theorem hint_same_key_twice_counterexample :
    (hintStep ⟨"", 0⟩ (hintInp "aaaaaaaaaaaaaaaaaaaaaaaa" 10000)).2 = true ∧
    (hintStep (hintStep ⟨"", 0⟩ (hintInp "aaaaaaaaaaaaaaaaaaaaaaaa" 10000)).1
      (hintInp "bbbbbbbbbbbbbbbbbbbbbbbb" 20000)).2 = true ∧
    (hintStep (hintStep (hintStep ⟨"", 0⟩ (hintInp "aaaaaaaaaaaaaaaaaaaaaaaa" 10000)).1
        (hintInp "bbbbbbbbbbbbbbbbbbbbbbbb" 20000)).1
      (hintInp "aaaaaaaaaaaaaaaaaaaaaaaa" 30000)).2 = true ∧
    textKey "aaaaaaaaaaaaaaaaaaaaaaaa" = textKey "aaaaaaaaaaaaaaaaaaaaaaaa" := by
  decide

/-- C7 amended.  A hint never fires with the same content key as the
immediately preceding hint, and never within 10 s of it: a firing step
requires a key different from the stored signature and at least 10 s
since the stored timestamp, and updates both together with the firing
decision; a non-firing step leaves the cooldown state unchanged, so two
hints in succession (with any non-firing updates between them) have
different keys and are at least 10 s apart. -/
theorem hint_cooldown (st : HintState) (inp inp2 : HintInput) :
    ((hintStep st inp).2 = true →
      textKey inp.stableText ≠ st.lastKey ∧
      10000 ≤ inp.now - st.lastTime ∧
      (hintStep st inp).1 = ⟨textKey inp.stableText, inp.now⟩) ∧
    ((hintStep st inp).2 = false → (hintStep st inp).1 = st) ∧
    ((hintStep st inp).2 = true → (hintStep (hintStep st inp).1 inp2).2 = true →
      textKey inp2.stableText ≠ textKey inp.stableText ∧
      10000 ≤ inp2.now - inp.now) := by
  have key : ∀ (s : HintState) (i : HintInput),
      ((hintStep s i).2 = true →
        textKey i.stableText ≠ s.lastKey ∧ 10000 ≤ i.now - s.lastTime ∧
        (hintStep s i).1 = ⟨textKey i.stableText, i.now⟩) ∧
      ((hintStep s i).2 = false → (hintStep s i).1 = s) := by
    intro s i
    constructor <;>
      · intro h
        revert h
        simp only [hintStep]
        split_ifs <;> simp_all
  refine ⟨(key st inp).1, (key st inp).2, fun h1 h2 => ?_⟩
  obtain ⟨-, -, hupd⟩ := (key st inp).1 h1
  obtain ⟨hk, ht, -⟩ := (key (hintStep st inp).1 inp2).1 h2
  rw [hupd] at hk ht
  exact ⟨hk, ht⟩

/-- C7 amended witness: two consecutive fires at t = 10000 and
t = 20000 with different keys satisfy all three clauses. -/
theorem hint_cooldown_witness :
    (hintStep ⟨"", 0⟩ (hintInp "aaaaaaaaaaaaaaaaaaaaaaaa" 10000)).2 = true ∧
    textKey "aaaaaaaaaaaaaaaaaaaaaaaa" ≠ ("" : String) ∧
    10000 ≤ 10000 - 0 ∧
    (hintStep ⟨"", 0⟩ (hintInp "aaaaaaaaaaaaaaaaaaaaaaaa" 10000)).1 =
      ⟨textKey "aaaaaaaaaaaaaaaaaaaaaaaa", 10000⟩ :=
  ⟨by decide,
    ((hint_cooldown ⟨"", 0⟩ (hintInp "aaaaaaaaaaaaaaaaaaaaaaaa" 10000)
        (hintInp "bbbbbbbbbbbbbbbbbbbbbbbb" 20000)).1 (by decide)).1,
    ((hint_cooldown ⟨"", 0⟩ (hintInp "aaaaaaaaaaaaaaaaaaaaaaaa" 10000)
        (hintInp "bbbbbbbbbbbbbbbbbbbbbbbb" 20000)).1 (by decide)).2.1,
    ((hint_cooldown ⟨"", 0⟩ (hintInp "aaaaaaaaaaaaaaaaaaaaaaaa" 10000)
        (hintInp "bbbbbbbbbbbbbbbbbbbbbbbb" 20000)).1 (by decide)).2.2⟩

-- ── C8: conversation history is capped at 10 entries ─────────────────────────

/-- C8.  The conversation history never exceeds 10 entries in any
reachable state; every append of a user/assistant pair truncates to the
most recent 10 entries (a suffix of the appended list — the oldest
entries are dropped first), appends without loss while 10 or fewer
entries result, holds exactly 10 afterwards, and the camera-capture
path performs the identical update as the text-context path. -/
theorem history_capped (s : AppState) (hr : Reach s)
    (prev : List HistoryEntry) (q a : String) :
    s.history.length ≤ 10 ∧
    (askHistoryUpdate prev q a).length ≤ 10 ∧
    captureHistoryUpdate prev q a = askHistoryUpdate prev q a ∧
    askHistoryUpdate prev q a <:+ (prev ++ [⟨Role.user, q⟩, ⟨Role.assistant, a⟩]) ∧
    (prev.length + 2 ≤ 10 →
      askHistoryUpdate prev q a = prev ++ [⟨Role.user, q⟩, ⟨Role.assistant, a⟩]) ∧
    (10 ≤ prev.length + 2 → (askHistoryUpdate prev q a).length = 10) := by
  refine ⟨(reach_inv hr).2.2.2, askHistoryUpdate_length_le prev q a, rfl,
    askHistoryUpdate_suffix prev q a, fun h => ?_, fun h => ?_⟩
  · have hz : (prev ++ [(⟨Role.user, q⟩ : HistoryEntry), ⟨Role.assistant, a⟩]).length - 10 = 0 := by
      simp only [List.length_append, List.length_cons, List.length_nil]
      omega
    simp only [askHistoryUpdate, hz, List.drop_zero]
  · simp only [askHistoryUpdate, List.length_drop, List.length_append,
      List.length_cons, List.length_nil]
    omega

/-- C8 witness: checked at the initial state with a six-entry history
(appending the seventh and eighth entries keeps all of them). -/
theorem history_capped_witness :
    initState.history.length ≤ 10 ∧
    (askHistoryUpdate
      [⟨Role.user, "a"⟩, ⟨Role.assistant, "b"⟩, ⟨Role.user, "c"⟩,
       ⟨Role.assistant, "d"⟩, ⟨Role.user, "e"⟩, ⟨Role.assistant, "f"⟩] "g" "h").length ≤ 10 :=
  ⟨(history_capped initState Reach.init [] "x" "y").1,
   (history_capped initState Reach.init
      [⟨Role.user, "a"⟩, ⟨Role.assistant, "b"⟩, ⟨Role.user, "c"⟩,
       ⟨Role.assistant, "d"⟩, ⟨Role.user, "e"⟩, ⟨Role.assistant, "f"⟩] "g" "h").2.1⟩

-- ── C9: inference failure handling (App.tsx lines 186-221) ───────────────────

/-- `CoachResponse` shape used by `askWithContextStream`. -/
structure AskResult where
  text : String
  audioUrl : Option String
deriving DecidableEq, Repr

/-- State touched by `handleAskWithText`. -/
structure TurnState where
  status : Status
  responseText : String
  errorMsg : String
  history : List HistoryEntry
  pendingQuestion : String
deriving DecidableEq, Repr

/-- `handleAskWithText` (App.tsx lines 186-221), modelled over the
outcome of the awaited `askWithContextStream` call: the handler first
enters `thinking` and clears the response and error; on success it
appends the exchange to history (truncated to 10), publishes the reply
and returns to `idle`; on rejection it records `err.message ??
'Request failed'` and enters `error` without touching history; the
`finally` clause clears `pendingQuestion` on both paths.  (`screenText`
only feeds the request itself.) -/
def handleAskWithText (st : TurnState) (question screenText : String)
    (outcome : Except (Option String) AskResult) : TurnState :=
  let st1 : TurnState := {st with status := Status.thinking, responseText := "", errorMsg := ""}
  match outcome with
  | Except.ok r =>
      { st1 with history := askHistoryUpdate st1.history question r.text,
                 responseText := r.text, status := Status.idle, pendingQuestion := "" }
  | Except.error m =>
      { st1 with errorMsg := m.getD "Request failed", status := Status.error,
                 pendingQuestion := "" }

/-- C9.  When the inference call rejects, the turn status becomes
`error` carrying the underlying message (or the fallback), the
conversation history is left unchanged, and `pendingQuestion` is
cleared on the failure path just as on the success path. -/
theorem inference_failure_handling (st : TurnState) (q sc : String)
    (m : Option String) (r : AskResult) :
    (handleAskWithText st q sc (Except.error m)).status = Status.error ∧
    (handleAskWithText st q sc (Except.error m)).errorMsg = m.getD "Request failed" ∧
    (handleAskWithText st q sc (Except.error m)).history = st.history ∧
    (handleAskWithText st q sc (Except.error m)).pendingQuestion = "" ∧
    (handleAskWithText st q sc (Except.ok r)).pendingQuestion = "" :=
  ⟨rfl, rfl, rfl, rfl, rfl⟩

end AICoach
